import Mathlib

/-!
Shallow embedding of the governance contracts
(`src/contracts/governance/src/{governance_token,proposal_manager,timelock,voting_system,types}.rs`).

Addresses are modelled as naturals, `u128`/`u64` values as naturals with explicit
bounds where the source uses checked arithmetic, `Bytes` as lists of naturals, and
the ledger's block sequence number / timestamp as natural-number parameters.
Contract storage becomes explicit state records; a host `panic_with_error` becomes
an `Except` error result.
-/

namespace Gov

abbrev Addr := Nat

/-- Model of `types.rs` `GovernanceError`. -/
inductive GovernanceError where
  | Unauthorized
  | InsufficientBalance
  | InvalidProposal
  | ProposalNotActive
  | AlreadyVoted
  | BelowProposalThreshold
  | ProposalNotSucceeded
  | TimelockNotExpired
  | ProposalAlreadyExecuted
  | ExecutionFailed
  | InvalidState
  | QuorumNotReached
  | InvalidCheckpoint
  | ArrayLengthMismatch
deriving Repr, DecidableEq

/-- A failure of a contract call: either a typed `GovernanceError` raised via
`panic_with_error`, or a fatal panic from checked `u128` arithmetic
(`checked_add(..).expect(..)`). -/
inductive TokenErr where
  | gov (e : GovernanceError)
  | overflow
deriving Repr, DecidableEq

/-- Model of `types.rs` `ProposalState`. -/
inductive ProposalState where
  | Pending
  | Active
  | Canceled
  | Defeated
  | Succeeded
  | Queued
  | Expired
  | Executed
deriving Repr, DecidableEq

/-- Model of `types.rs` `VoteSupport`. -/
inductive VoteSupport where
  | Against
  | For
  | Abstain
deriving Repr, DecidableEq

/-- Model of `types.rs` `Checkpoint`. -/
structure Checkpoint where
  from_block : Nat
  votes : Nat
deriving Repr, DecidableEq, Inhabited

/-- Model of `types.rs` `GovernanceConfig`. -/
structure GovernanceConfig where
  voting_delay : Nat
  voting_period : Nat
  proposal_threshold : Nat
  quorum_numerator : Nat
  timelock_delay : Nat
deriving Repr, DecidableEq

/-- Model of `types.rs` `Proposal`. -/
structure Proposal where
  id : Nat
  proposer : Addr
  targets : List Addr
  values : List Nat
  calldatas : List (List Nat)
  description : String
  start_block : Nat
  end_block : Nat
  for_votes : Nat
  against_votes : Nat
  abstain_votes : Nat
  canceled : Bool
  executed : Bool
  eta : Nat
deriving Repr, DecidableEq

/-- Model of `types.rs` `VoteRecord`. -/
structure VoteRecord where
  has_voted : Bool
  support : VoteSupport
  votes : Nat
deriving Repr, DecidableEq

/-- The bound `u128::MAX + 1`: checked `u128` addition succeeds strictly below this bound. -/
def U128LIM : Nat := 2 ^ 128

/-- Rust `u128::checked_add` on the natural-number model. -/
def checked_add_u128 (a b : Nat) : Option Nat :=
  if a + b < U128LIM then some (a + b) else none

/-- Pointwise map update (one storage cell rewritten). -/
def upd {α β : Type} [DecidableEq α] (f : α → β) (x : α) (v : β) : α → β :=
  fun y => if y = x then v else f y

/-! ## Checkpoint ledger (`governance_token.rs`) -/

/-- Checkpoint list access, `_get_checkpoint`: the source `unwrap`s a storage read
that is always in bounds at its call sites; out-of-range indices default. -/
def chkAt (cps : List Checkpoint) (i : Nat) : Checkpoint :=
  cps.getD i default

/-- Model of `GovernanceToken::_write_checkpoint` acting on one account's checkpoint list
at ledger block `cur`: overwrite the last entry when it is at the same block,
otherwise append a fresh entry (the source then bumps `NUMCHK`, which is the
list length here). -/
def write_checkpoint (cps : List Checkpoint) (cur : Nat) (new_votes : Nat) : List Checkpoint :=
  match cps.getLast? with
  | some last =>
    if last.from_block = cur then
      cps.dropLast ++ [⟨cur, new_votes⟩]
    else
      cps ++ [⟨cur, new_votes⟩]
  | none => cps ++ [⟨cur, new_votes⟩]

/-- Model of `GovernanceToken::get_current_votes` on one account's checkpoint list. -/
def get_current_votes (cps : List Checkpoint) : Nat :=
  if cps.length > 0 then (chkAt cps (cps.length - 1)).votes else 0

/-- The binary-search loop inside `GovernanceToken::get_prior_votes`
(`lower`/`upper` are the loop variables; the loop body is followed literally). -/
def bsearch (cps : List Checkpoint) (b : Nat) (lower upper : Nat) : Nat :=
  if h : upper > lower then
    let center := upper - (upper - lower) / 2
    let c := chkAt cps center
    if c.from_block = b then c.votes
    else if c.from_block < b then bsearch cps b center upper
    else bsearch cps b lower (center - 1)
  else
    (chkAt cps lower).votes
termination_by upper - lower
decreasing_by
  · have hq : (upper - lower) / 2 < upper - lower := Nat.div_lt_self (by omega) (by omega)
    omega
  · have hq : (upper - lower) / 2 < upper - lower := Nat.div_lt_self (by omega) (by omega)
    omega

/-- Model of `GovernanceToken::get_prior_votes` on one account's checkpoint list, with the
ledger sequence number passed as `current_block`. -/
def get_prior_votes (cps : List Checkpoint) (current_block : Nat) (block_number : Nat) :
    Except GovernanceError Nat :=
  if block_number ≥ current_block then .error .InvalidCheckpoint
  else
    let n := cps.length
    if n = 0 then .ok 0
    else
      let most_recent := chkAt cps (n - 1)
      if most_recent.from_block ≤ block_number then .ok most_recent.votes
      else
        let first := chkAt cps 0
        if first.from_block > block_number then .ok 0
        else .ok (bsearch cps block_number 0 (n - 1))

/-- Reference function for checkpoint lookups, written from the spec's words:
the votes of the latest checkpoint whose `from_block <= block_number`
(0 when none qualifies). -/
def priorVotesAt (cps : List Checkpoint) (b : Nat) : Nat :=
  cps.foldl (fun acc c => if c.from_block ≤ b then c.votes else acc) 0

/-- The checkpoint-list invariant: `from_block` strictly increases along the list
(equivalently: non-decreasing with at most one checkpoint per distinct block). -/
def ChkSorted (cps : List Checkpoint) : Prop :=
  List.Pairwise (fun a b => a.from_block < b.from_block) cps

instance (cps : List Checkpoint) : Decidable (ChkSorted cps) := by
  unfold ChkSorted; infer_instance

/-- All checkpoints of the list are at blocks `≤ cur`. -/
def ChkBounded (cps : List Checkpoint) (cur : Nat) : Prop :=
  ∀ c ∈ cps, c.from_block ≤ cur

instance (cps : List Checkpoint) (cur : Nat) : Decidable (ChkBounded cps cur) := by
  unfold ChkBounded; infer_instance

/-! ## Token state and operations (`governance_token.rs`) -/

/-- The persistent storage of `GovernanceToken` that governance behaviour depends
on: balances, allowances, the delegate mapping (`none` = unset, which the source
reads back as self-delegation), and per-account checkpoint lists. -/
structure TokenState where
  balances : Addr → Nat
  allowances : Addr → Addr → Nat
  delegates : Addr → Option Addr
  checkpoints : Addr → List Checkpoint
  total_supply : Nat

/-- Model of `GovernanceToken::_delegates`: stored delegate or the account itself. -/
def delegatesOf (st : TokenState) (a : Addr) : Addr :=
  (st.delegates a).getD a

/-- Model of `GovernanceToken::_move_delegates` acting on the checkpoint map at ledger
block `cur`; `none` models the fatal `checked_add(..).expect("Overflow in votes")`. -/
def move_delegates (chk : Addr → List Checkpoint) (cur : Nat) (f t : Addr) (amount : Nat) :
    Option (Addr → List Checkpoint) :=
  if f ≠ t ∧ amount > 0 then
    let from_votes := get_current_votes (chk f)
    let new_from_votes := if from_votes ≥ amount then from_votes - amount else 0
    let chk1 := upd chk f (write_checkpoint (chk f) cur new_from_votes)
    let to_votes := get_current_votes (chk1 t)
    match checked_add_u128 to_votes amount with
    | none => none
    | some new_to_votes => some (upd chk1 t (write_checkpoint (chk1 t) cur new_to_votes))
  else some chk

/-- Model of `GovernanceToken::initialize` at ledger block `cur`, for a fresh ledger:
mint `initial_supply` to `admin` and write the admin's first checkpoint. -/
def initializeToken (admin : Addr) (initial_supply : Nat) (cur : Nat) : TokenState :=
  { balances := upd (fun _ => 0) admin initial_supply
    allowances := fun _ _ => 0
    delegates := fun _ => none
    checkpoints := upd (fun _ => []) admin (write_checkpoint [] cur initial_supply)
    total_supply := initial_supply }

/-- Model of `GovernanceToken::transfer` at ledger block `cur` (authorization of `f` is
the host's job and is outside the model). -/
def transfer (st : TokenState) (cur : Nat) (f t : Addr) (amount : Nat) :
    Except TokenErr TokenState :=
  if amount = 0 then .ok st
  else if st.balances f < amount then .error (.gov .InsufficientBalance)
  else
    let bal1 := upd st.balances f (st.balances f - amount)
    match checked_add_u128 (bal1 t) amount with
    | none => .error .overflow
    | some new_to_balance =>
      let bal2 := upd bal1 t new_to_balance
      match move_delegates st.checkpoints cur (delegatesOf st f) (delegatesOf st t) amount with
      | none => .error .overflow
      | some chk2 => .ok { st with balances := bal2, checkpoints := chk2 }

/-- Model of `GovernanceToken::transfer_from` at ledger block `cur` (spender
authorization is the host's job; note the source adds to the recipient balance
with an unchecked `+`, kept as plain natural addition here). -/
def transfer_from (st : TokenState) (cur : Nat) (spender f t : Addr) (amount : Nat) :
    Except TokenErr TokenState :=
  if amount = 0 then .ok st
  else if st.allowances f spender < amount then .error (.gov .InsufficientBalance)
  else
    let allow1 := fun o s =>
      if o = f ∧ s = spender then st.allowances f spender - amount else st.allowances o s
    if st.balances f < amount then .error (.gov .InsufficientBalance)
    else
      let bal1 := upd st.balances f (st.balances f - amount)
      let bal2 := upd bal1 t (bal1 t + amount)
      match move_delegates st.checkpoints cur (delegatesOf st f) (delegatesOf st t) amount with
      | none => .error .overflow
      | some chk2 =>
        .ok { st with balances := bal2, allowances := allow1, checkpoints := chk2 }

/-- Model of `GovernanceToken::delegate` at ledger block `cur`. -/
def delegate (st : TokenState) (cur : Nat) (delegator delegatee : Addr) :
    Except TokenErr TokenState :=
  let current_delegate := delegatesOf st delegator
  let delegator_balance := st.balances delegator
  let dmap := upd st.delegates delegator (some delegatee)
  match move_delegates st.checkpoints cur current_delegate delegatee delegator_balance with
  | none => .error .overflow
  | some chk2 => .ok { st with delegates := dmap, checkpoints := chk2 }

/-- A balance- or delegation-affecting token operation (the checkpoint writers). -/
inductive GovOp where
  | transferOp (f t : Addr) (amount : Nat)
  | transferFromOp (spender f t : Addr) (amount : Nat)
  | delegateOp (delegator delegatee : Addr)
deriving Repr, DecidableEq

/-- Dispatch one operation at ledger block `cur`. -/
def applyOp (st : TokenState) (cur : Nat) : GovOp → Except TokenErr TokenState
  | .transferOp f t amount => transfer st cur f t amount
  | .transferFromOp spender f t amount => transfer_from st cur spender f t amount
  | .delegateOp delegator delegatee => delegate st cur delegator delegatee

/-- Run a sequence of block-stamped operations; a failing call aborts with no
state mutation (the host's atomic-call guarantee). -/
def runOps (st : TokenState) : List (Nat × GovOp) → TokenState
  | [] => st
  | (cur, op) :: rest =>
    runOps (match applyOp st cur op with | .ok st2 => st2 | .error _ => st) rest

/-! ## Voting system (`voting_system.rs`) -/

/-- Persistent storage of `VotingSystem`: the vote receipts. -/
structure VotingState where
  records : Nat → Addr → Option VoteRecord

/-- Model of `VotingSystem::has_voted`. -/
def has_voted (vs : VotingState) (proposal_id : Nat) (voter : Addr) : Bool :=
  match vs.records proposal_id voter with
  | some r => r.has_voted
  | none => false

/-- Model of `VotingSystem::cast_vote` at ledger block `cur`, with the token contract's
checkpoint map injected (the cross-contract `get_prior_votes` call). -/
def cast_vote (vs : VotingState) (tokenChk : Addr → List Checkpoint) (cur : Nat)
    (proposal_id snapshot_block : Nat) (voter : Addr) (support : VoteSupport) :
    Except GovernanceError (VotingState × VoteRecord) :=
  if has_voted vs proposal_id voter then .error .AlreadyVoted
  else
    match get_prior_votes (tokenChk voter) cur snapshot_block with
    | .error e => .error e
    | .ok votes =>
      if votes = 0 then .error .InsufficientBalance
      else
        let vote_record : VoteRecord := ⟨true, support, votes⟩
        let recs := fun p a =>
          if p = proposal_id ∧ a = voter then some vote_record else vs.records p a
        .ok ({ records := recs }, vote_record)

/-- Model of `VotingSystem::quorum_reached` with the token's `total_supply` injected.
Unlike the checked additions elsewhere in the codebase, the source computes
`for_votes + against_votes + abstain_votes` and `total_supply * quorum_numerator as u128`
with bare `u128` operations, which wrap modulo `2^128` in a release build; the
wrap is modelled explicitly (`quorum_numerator` is a `u64` widened to `u128`,
and the division by 100 cannot overflow). -/
def quorum_reached (total_supply for_votes against_votes abstain_votes quorum_numerator : Nat) :
    Bool :=
  let total_votes := (for_votes + against_votes + abstain_votes) % U128LIM
  let quorum := total_supply * quorum_numerator % U128LIM / 100
  total_votes ≥ quorum

/-- Model of `VotingSystem::proposal_succeeded`. -/
def proposal_succeeded (total_supply for_votes against_votes abstain_votes quorum_numerator : Nat) :
    Bool :=
  if ¬ quorum_reached total_supply for_votes against_votes abstain_votes quorum_numerator then
    false
  else
    for_votes > against_votes

/-! ## Proposal manager (`proposal_manager.rs`) -/

/-- Persistent storage of `ProposalManager` that governance behaviour depends on
(the stored token/timelock/voting contract addresses are implicit: their state
is injected at each call). -/
structure ManagerState where
  admin : Addr
  config : GovernanceConfig
  proposals : Nat → Option Proposal
  proposal_count : Nat

/-- Model of `ProposalManager::initialize`. -/
def initializeManager (admin : Addr) (config : GovernanceConfig) : ManagerState :=
  { admin := admin, config := config, proposals := fun _ => none, proposal_count := 0 }

/-- Model of `ProposalManager::propose` at ledger block `cur` (proposer authorization is
the host's job; `_next_proposal_id` is inlined as `proposal_count + 1`). -/
def propose (mgr : ManagerState) (tokenChk : Addr → List Checkpoint) (cur : Nat)
    (proposer : Addr) (targets : List Addr) (values : List Nat) (calldatas : List (List Nat))
    (description : String) : Except GovernanceError (ManagerState × Nat) :=
  if targets.length ≠ values.length ∨ targets.length ≠ calldatas.length then
    .error .ArrayLengthMismatch
  else if targets.length = 0 then .error .InvalidProposal
  else
    match get_prior_votes (tokenChk proposer) cur (cur - 1) with
    | .error e => .error e
    | .ok proposer_votes =>
      if proposer_votes < mgr.config.proposal_threshold then .error .BelowProposalThreshold
      else
        let proposal_id := mgr.proposal_count + 1
        let start_block := cur + mgr.config.voting_delay
        let end_block := start_block + mgr.config.voting_period
        let p : Proposal :=
          { id := proposal_id, proposer := proposer, targets := targets, values := values
            calldatas := calldatas, description := description
            start_block := start_block, end_block := end_block
            for_votes := 0, against_votes := 0, abstain_votes := 0
            canceled := false, executed := false, eta := 0 }
        let pmap := upd mgr.proposals proposal_id (some p)
        .ok ({ mgr with proposals := pmap, proposal_count := proposal_id }, proposal_id)

/-- The 14-day grace period used by `ProposalManager::state` (seconds). -/
def gracePeriod : Nat := 14 * 24 * 60 * 60

/-- The state-derivation rules of `ProposalManager::state` for a fetched
proposal, at ledger block `cur_block` and timestamp `cur_time`, with the token's
`total_supply` and the live config's `quorum_numerator` injected. -/
def stateOf (p : Proposal) (cur_block cur_time total_supply quorum_numerator : Nat) :
    ProposalState :=
  if p.canceled then .Canceled
  else if p.executed then .Executed
  else if cur_block < p.start_block then .Pending
  else if cur_block ≤ p.end_block then .Active
  else if ¬ proposal_succeeded total_supply p.for_votes p.against_votes p.abstain_votes
            quorum_numerator then .Defeated
  else if p.eta = 0 then .Succeeded
  else if cur_time > p.eta + gracePeriod then .Expired
  else .Queued

/-- Model of `ProposalManager::state`: fetch the proposal (`InvalidProposal` when
missing) and derive its state. -/
def mgr_state (mgr : ManagerState) (proposal_id cur_block cur_time total_supply : Nat) :
    Except GovernanceError ProposalState :=
  match mgr.proposals proposal_id with
  | none => .error .InvalidProposal
  | some p => .ok (stateOf p cur_block cur_time total_supply mgr.config.quorum_numerator)

/-- Model of `ProposalManager::record_vote`. -/
def record_vote (mgr : ManagerState) (proposal_id : Nat) (support : VoteSupport) (votes : Nat) :
    Except TokenErr ManagerState :=
  match mgr.proposals proposal_id with
  | none => .error (.gov .InvalidProposal)
  | some p =>
    match support with
    | .For =>
      match checked_add_u128 p.for_votes votes with
      | none => .error .overflow
      | some nv =>
        .ok { mgr with proposals := upd mgr.proposals proposal_id (some { p with for_votes := nv }) }
    | .Against =>
      match checked_add_u128 p.against_votes votes with
      | none => .error .overflow
      | some nv =>
        let pmap := upd mgr.proposals proposal_id (some { p with against_votes := nv })
        .ok { mgr with proposals := pmap }
    | .Abstain =>
      match checked_add_u128 p.abstain_votes votes with
      | none => .error .overflow
      | some nv =>
        let pmap := upd mgr.proposals proposal_id (some { p with abstain_votes := nv })
        .ok { mgr with proposals := pmap }

/-- The tally bucket of a proposal selected by a `VoteSupport` value. -/
def bucket (p : Proposal) : VoteSupport → Nat
  | .For => p.for_votes
  | .Against => p.against_votes
  | .Abstain => p.abstain_votes

/-- Model of `ProposalManager::update_config`. -/
def update_config (mgr : ManagerState) (caller : Addr) (new_config : GovernanceConfig) :
    Except GovernanceError ManagerState :=
  if caller ≠ mgr.admin then .error .Unauthorized
  else .ok { mgr with config := new_config }

/-! ## Timelock (`timelock.rs`) -/

/-- Big-endian byte encoding of a `width`-byte unsigned integer
(`to_be_bytes` of `u128`/`u64` for in-range values). -/
def beBytes (width : Nat) (v : Nat) : List Nat :=
  (List.range width).map (fun i => v / 256 ^ (width - 1 - i) % 256)

/-- Model of `Timelock::_get_tx_hash`, parametric in the host's `keccak256` primitive:
the hash input concatenates `value.to_be_bytes()`, `data`, and
`eta.to_be_bytes()` — the `target` argument is never appended. -/
def get_tx_hash (keccak : List Nat → List Nat) (_target : Addr) (value : Nat)
    (data : List Nat) (eta : Nat) : List Nat :=
  keccak (beBytes 16 value ++ data ++ beBytes 8 eta)

/-- Persistent storage of `Timelock`. -/
structure TimelockState where
  admin : Addr
  delay : Nat
  queued : List Nat → Bool

/-- Model of `Timelock::queue_transaction` at timestamp `cur_time` (admin authorization
is the host's job), returning the new state and the transaction hash. -/
def queue_transaction (keccak : List Nat → List Nat) (tl : TimelockState) (cur_time : Nat)
    (target : Addr) (value : Nat) (data : List Nat) (eta : Nat) :
    Except GovernanceError (TimelockState × List Nat) :=
  if eta < cur_time + tl.delay then .error .TimelockNotExpired
  else
    let tx_hash := get_tx_hash keccak target value data eta
    .ok ({ tl with queued := fun h => if h = tx_hash then true else tl.queued h }, tx_hash)

/-! ## Derived predicates and sample states -/

/-- The checkpoint map evolves at block `cur`: each account's list is unchanged
or rewritten once by `write_checkpoint` at `cur`. -/
def ChkEvolve (chk chk2 : Addr → List Checkpoint) (cur : Nat) : Prop :=
  ∀ a, chk2 a = chk a ∨ ∃ w, chk2 a = write_checkpoint (chk a) cur w

/-- Every account's checkpoint list is strictly sorted and bounded by `cur`. -/
def WfUpto (st : TokenState) (cur : Nat) : Prop :=
  ∀ a, ChkSorted (st.checkpoints a) ∧ ChkBounded (st.checkpoints a) cur

/-- Reachable voting storage: every stored receipt has `has_voted = true`
(`cast_vote` is the only writer and only writes such records). -/
def VotesWf (vs : VotingState) : Prop :=
  ∀ pid a r, vs.records pid a = some r → r.has_voted = true

/-! ### Sample states used by concrete witnesses -/

/-- A sample config with 50% quorum. -/
def cfg50 : GovernanceConfig := ⟨10, 100, 500000, 50, 7200⟩

/-- The same parameters with quorum numerator 70. -/
def cfg70 : GovernanceConfig := ⟨10, 100, 500000, 70, 7200⟩

/-- A config differing from `cfg50` everywhere except the quorum numerator. -/
def cfgSameQuorum : GovernanceConfig := ⟨20, 200, 1, 50, 99⟩

/-- A closed sample proposal with 60 For votes out of supply 100. -/
def propSample : Proposal :=
  { id := 1, proposer := 7, targets := [3], values := [0], calldatas := [[]]
    description := "", start_block := 10, end_block := 20
    for_votes := 60, against_votes := 0, abstain_votes := 0
    canceled := false, executed := false, eta := 0 }

/-- A sample manager holding `propSample` under id 1. -/
def mgrSample : ManagerState :=
  { admin := 0, config := cfg50
    proposals := upd (fun _ => none) 1 (some propSample), proposal_count := 1 }

/-- The manager `mgrSample` after an admin config update to `cfg70`. -/
def mgrSample70 : ManagerState := { mgrSample with config := cfg70 }

/-- Sample voting storage and token checkpoints for the C8 witness. -/
def vs0 : VotingState := ⟨fun _ _ => none⟩

/-- One checkpoint of 100 votes at block 5, for every account. -/
def tokenChk0 : Addr → List Checkpoint := fun _ => [⟨5, 100⟩]

/-! ### Checkpoint access lemmas -/

lemma chkAt_eq_get {cps : List Checkpoint} {i : Nat} (h : i < cps.length) :
    chkAt cps i = cps.get ⟨i, h⟩ := by
  simp [chkAt, List.getD_eq_getElem?_getD, List.getElem?_eq_getElem h]

lemma chkAt_append_lt {l l2 : List Checkpoint} {i : Nat} (h : i < l.length) :
    chkAt (l ++ l2) i = chkAt l i := by
  simp [chkAt, List.getD_eq_getElem?_getD, List.getElem?_append, h]

lemma chkAt_append_len (l : List Checkpoint) (c : Checkpoint) :
    chkAt (l ++ [c]) l.length = c := by
  simp [chkAt, List.getD_eq_getElem?_getD, List.getElem?_concat_length]

lemma sorted_lt {cps : List Checkpoint} (hs : ChkSorted cps) {i j : Nat}
    (hij : i < j) (hj : j < cps.length) :
    (chkAt cps i).from_block < (chkAt cps j).from_block := by
  have hi : i < cps.length := lt_trans hij hj
  rw [chkAt_eq_get hi, chkAt_eq_get hj]
  exact List.pairwise_iff_get.mp hs ⟨i, hi⟩ ⟨j, hj⟩ hij

/-! ### priorVotesAt lemmas -/

lemma priorVotesAt_append (l : List Checkpoint) (c : Checkpoint) (b : Nat) :
    priorVotesAt (l ++ [c]) b = if c.from_block ≤ b then c.votes else priorVotesAt l b := by
  simp [priorVotesAt, List.foldl_append]

lemma priorVotesAt_eq_of_lastLE {b : Nat} :
    ∀ {cps : List Checkpoint} {j : Nat}, ∀ hj : j < cps.length,
      (chkAt cps j).from_block ≤ b →
      (∀ i, j < i → i < cps.length → b < (chkAt cps i).from_block) →
      priorVotesAt cps b = (chkAt cps j).votes := by
  intro cps
  induction cps using List.reverseRecOn with
  | nil => intro j hj; exact absurd hj (by simp)
  | append_singleton l c ih =>
    intro j hj hle hgt
    rcases Nat.lt_or_ge j l.length with hjl | hjl
    · have hcgt : b < c.from_block := by
        have := hgt l.length hjl (by simp)
        rwa [chkAt_append_len] at this
      rw [priorVotesAt_append, if_neg (by omega), chkAt_append_lt hjl]
      rw [chkAt_append_lt hjl] at hle
      refine ih hjl hle ?_
      intro i hji hil
      have := hgt i hji (by simp; omega)
      rwa [chkAt_append_lt hil] at this
    · have hj' : j = l.length := by simp at hj; omega
      subst hj'
      rw [chkAt_append_len] at hle ⊢
      rw [priorVotesAt_append, if_pos hle]

lemma priorVotesAt_eq_zero {b : Nat} :
    ∀ {cps : List Checkpoint}, (∀ c ∈ cps, b < c.from_block) → priorVotesAt cps b = 0 := by
  intro cps
  induction cps using List.reverseRecOn with
  | nil => intro _; rfl
  | append_singleton l c ih =>
    intro h
    rw [priorVotesAt_append, if_neg (by have := h c (by simp); omega)]
    exact ih (fun a ha => h a (by simp [ha]))

/-! ### Binary search correctness -/

lemma bsearch_eq {cps : List Checkpoint} {b : Nat} (hs : ChkSorted cps) :
    ∀ d lower upper, upper - lower = d → lower ≤ upper → upper < cps.length →
      (chkAt cps lower).from_block ≤ b →
      (∀ i, upper < i → i < cps.length → b < (chkAt cps i).from_block) →
      bsearch cps b lower upper = priorVotesAt cps b := by
  intro d
  induction d using Nat.strong_induction_on with
  | _ d ih =>
    intro lower upper hd hle hub hlow hup
    rw [bsearch]
    split
    · rename_i h
      have hq : (upper - lower) / 2 < upper - lower := Nat.div_lt_self (by omega) (by omega)
      set center := upper - (upper - lower) / 2 with hcdef
      have hc1 : lower < center := by omega
      have hc2 : center ≤ upper := by omega
      by_cases heq : (chkAt cps center).from_block = b
      · rw [if_pos heq]
        refine (priorVotesAt_eq_of_lastLE (by omega) (le_of_eq heq) ?_).symm
        intro i hci hil
        rcases Nat.lt_or_ge upper i with hui | hui
        · exact hup i hui hil
        · have := sorted_lt hs hci hil
          omega
      · rw [if_neg heq]
        by_cases hlt : (chkAt cps center).from_block < b
        · rw [if_pos hlt]
          exact ih (upper - center) (by omega) center upper rfl hc2 hub (le_of_lt hlt) hup
        · rw [if_neg hlt]
          have hbc : b < (chkAt cps center).from_block := by omega
          refine ih (center - 1 - lower) (by omega) lower (center - 1) rfl (by omega)
            (by omega) hlow ?_
          intro i hci hil
          rcases Nat.lt_or_ge upper i with hui | hui
          · exact hup i hui hil
          · rcases Nat.lt_or_ge center i with hci2 | hci2
            · have := sorted_lt hs hci2 hil
              omega
            · have hic : i = center := by omega
              rw [hic]; exact hbc
    · rename_i h
      have : lower = upper := by omega
      subst this
      exact (priorVotesAt_eq_of_lastLE hub hlow hup).symm

lemma get_prior_votes_ok {cps : List Checkpoint} (hs : ChkSorted cps)
    {current_block b : Nat} (hb : b < current_block) :
    get_prior_votes cps current_block b = .ok (priorVotesAt cps b) := by
  unfold get_prior_votes
  rw [if_neg (by omega)]
  by_cases hn : cps.length = 0
  · rw [if_pos hn]
    rw [List.length_eq_zero.mp hn]
    rfl
  · rw [if_neg hn]
    by_cases hmr : (chkAt cps (cps.length - 1)).from_block ≤ b
    · rw [if_pos hmr]
      refine congrArg Except.ok (priorVotesAt_eq_of_lastLE (by omega) hmr ?_).symm
      intro i hi hil; omega
    · rw [if_neg hmr]
      by_cases hfst : (chkAt cps 0).from_block > b
      · rw [if_pos hfst]
        refine congrArg Except.ok ?_
        refine (priorVotesAt_eq_zero ?_).symm
        intro c hc
        rcases List.mem_iff_get.mp hc with ⟨⟨i, hil⟩, hci⟩
        rw [← hci, ← chkAt_eq_get hil]
        rcases Nat.eq_zero_or_pos i with hi0 | hi0
        · subst hi0
          omega
        · have := sorted_lt hs hi0 hil
          omega
      · rw [if_neg hfst]
        refine congrArg Except.ok ?_
        refine bsearch_eq hs (cps.length - 1 - 0) 0 (cps.length - 1) rfl (by omega)
          (by omega) (by omega) ?_
        intro i hi hil; omega

/-! ### write_checkpoint lemmas -/

lemma upd_same {α β : Type} [DecidableEq α] (f : α → β) (x : α) (v : β) : upd f x v x = v := by
  simp [upd]

lemma upd_ne {α β : Type} [DecidableEq α] (f : α → β) {x y : α} (v : β) (h : y ≠ x) :
    upd f x v y = f y := by
  simp [upd, h]

lemma write_checkpoint_nil (cur v : Nat) : write_checkpoint [] cur v = [⟨cur, v⟩] := rfl

lemma write_checkpoint_same (l : List Checkpoint) {c : Checkpoint} {cur : Nat} (v : Nat)
    (h : c.from_block = cur) :
    write_checkpoint (l ++ [c]) cur v = l ++ [⟨cur, v⟩] := by
  unfold write_checkpoint
  rw [List.getLast?_concat]
  simp [h]

lemma write_checkpoint_ne (l : List Checkpoint) {c : Checkpoint} {cur : Nat} (v : Nat)
    (h : c.from_block ≠ cur) :
    write_checkpoint (l ++ [c]) cur v = (l ++ [c]) ++ [⟨cur, v⟩] := by
  unfold write_checkpoint
  rw [List.getLast?_concat]
  simp [h]

lemma priorVotesAt_write {b cur : Nat} (v : Nat) (hb : b < cur) :
    ∀ cps : List Checkpoint, priorVotesAt (write_checkpoint cps cur v) b = priorVotesAt cps b := by
  intro cps
  induction cps using List.reverseRecOn with
  | nil =>
    rw [write_checkpoint_nil]
    show priorVotesAt ([] ++ [⟨cur, v⟩]) b = priorVotesAt [] b
    rw [priorVotesAt_append, if_neg (by simp; omega)]
  | append_singleton l c _ =>
    by_cases hc : c.from_block = cur
    · rw [write_checkpoint_same l v hc, priorVotesAt_append, priorVotesAt_append]
      rw [if_neg (by simp; omega), if_neg (by omega)]
    · rw [write_checkpoint_ne l v hc, priorVotesAt_append (l ++ [c])]
      rw [if_neg (by simp; omega)]

lemma write_checkpoint_wf {cur : Nat} (v : Nat) :
    ∀ {cps : List Checkpoint}, ChkSorted cps → ChkBounded cps cur →
      ChkSorted (write_checkpoint cps cur v) ∧ ChkBounded (write_checkpoint cps cur v) cur := by
  intro cps hs hbd
  induction cps using List.reverseRecOn with
  | nil =>
    rw [write_checkpoint_nil]
    constructor
    · exact List.pairwise_singleton _ _
    · intro c hc; simp at hc; simp [hc]
  | append_singleton l c _ =>
    rw [ChkSorted, List.pairwise_append] at hs
    obtain ⟨hsl, -, hcross⟩ := hs
    have hcl : ∀ a ∈ l, a.from_block < c.from_block := by
      intro a ha; exact hcross a ha c (by simp)
    have hcb : c.from_block ≤ cur := hbd c (by simp)
    by_cases hc : c.from_block = cur
    · rw [write_checkpoint_same l v hc]
      constructor
      · rw [ChkSorted, List.pairwise_append]
        refine ⟨hsl, List.pairwise_singleton _ _, ?_⟩
        intro a ha b hb'
        simp at hb'
        subst hb'
        have := hcl a ha
        simp; omega
      · intro a ha
        rcases List.mem_append.mp ha with ha | ha
        · have := hcl a ha; omega
        · simp at ha; subst ha; simp
    · rw [write_checkpoint_ne l v hc]
      constructor
      · rw [ChkSorted, List.pairwise_append]
        refine ⟨?_, List.pairwise_singleton _ _, ?_⟩
        · rw [ChkSorted, List.pairwise_append] at *
          exact ⟨hsl, List.pairwise_singleton _ _, fun a ha b hb' => by
            simp at hb'; subst hb'; exact hcl a ha⟩
        · intro a ha b hb'
          simp at hb'
          subst hb'
          rcases List.mem_append.mp ha with ha | ha
          · have := hcl a ha; simp; omega
          · simp at ha; subst ha; simp; omega
      · intro a ha
        rcases List.mem_append.mp ha with ha | ha
        · exact hbd a ha
        · simp at ha; subst ha; simp

/-! ### Checkpoint evolution under token operations -/

lemma chkEvolve_refl (chk : Addr → List Checkpoint) (cur : Nat) : ChkEvolve chk chk cur :=
  fun _ => Or.inl rfl

lemma move_delegates_evolve {chk : Addr → List Checkpoint} {cur : Nat} {f t : Addr}
    {amount : Nat} {chk2 : Addr → List Checkpoint}
    (h : move_delegates chk cur f t amount = some chk2) :
    ChkEvolve chk chk2 cur := by
  by_cases hft : f ≠ t ∧ amount > 0
  · rw [move_delegates, if_pos hft] at h
    dsimp only at h
    split at h
    · exact absurd h (by simp)
    · rename_i nt hnt
      injection h with h
      subst h
      intro a
      have htf : t ≠ f := fun hh => hft.1 hh.symm
      by_cases hat : a = t
      · subst hat
        right
        rw [upd_same, upd_ne _ _ htf]
        exact ⟨nt, rfl⟩
      · by_cases haf : a = f
        · subst haf
          right
          rw [upd_ne _ _ hat, upd_same]
          exact ⟨_, rfl⟩
        · left
          rw [upd_ne _ _ hat, upd_ne _ _ haf]
  · rw [move_delegates, if_neg hft] at h
    injection h with h
    subst h
    exact chkEvolve_refl _ _

lemma transfer_evolve {st : TokenState} {cur : Nat} {f t : Addr} {amount : Nat}
    {st2 : TokenState} (h : transfer st cur f t amount = .ok st2) :
    ChkEvolve st.checkpoints st2.checkpoints cur := by
  unfold transfer at h
  split at h
  · injection h with h; subst h; exact chkEvolve_refl _ _
  · split at h
    · exact absurd h (by simp)
    · dsimp only at h
      split at h
      · exact absurd h (by simp)
      · split at h
        · exact absurd h (by simp)
        · rename_i chk3 hmd
          injection h with h
          subst h
          exact move_delegates_evolve hmd

lemma transfer_from_evolve {st : TokenState} {cur : Nat} {sp f t : Addr} {amount : Nat}
    {st2 : TokenState} (h : transfer_from st cur sp f t amount = .ok st2) :
    ChkEvolve st.checkpoints st2.checkpoints cur := by
  unfold transfer_from at h
  split at h
  · injection h with h; subst h; exact chkEvolve_refl _ _
  · split at h
    · exact absurd h (by simp)
    · dsimp only at h
      split at h
      · exact absurd h (by simp)
      · split at h
        · exact absurd h (by simp)
        · rename_i chk3 hmd
          injection h with h
          subst h
          exact move_delegates_evolve hmd

lemma delegate_evolve {st : TokenState} {cur : Nat} {dr de : Addr}
    {st2 : TokenState} (h : delegate st cur dr de = .ok st2) :
    ChkEvolve st.checkpoints st2.checkpoints cur := by
  unfold delegate at h
  dsimp only at h
  split at h
  · exact absurd h (by simp)
  · rename_i chk3 hmd
    injection h with h
    subst h
    exact move_delegates_evolve hmd

lemma applyOp_evolve {st : TokenState} {cur : Nat} {op : GovOp} {st2 : TokenState}
    (h : applyOp st cur op = .ok st2) :
    ChkEvolve st.checkpoints st2.checkpoints cur := by
  cases op with
  | transferOp f t amount => exact transfer_evolve h
  | transferFromOp sp f t amount => exact transfer_from_evolve h
  | delegateOp dr de => exact delegate_evolve h

/-! ### Wellformedness of the token state -/

lemma wfUpto_mono {st : TokenState} {cur cur2 : Nat} (h : cur ≤ cur2) (hwf : WfUpto st cur) :
    WfUpto st cur2 := by
  intro a
  exact ⟨(hwf a).1, fun c hc => le_trans ((hwf a).2 c hc) h⟩

lemma chkEvolve_wf {chk chk2 : Addr → List Checkpoint} {cur : Nat}
    (he : ChkEvolve chk chk2 cur)
    (hwf : ∀ a, ChkSorted (chk a) ∧ ChkBounded (chk a) cur) :
    ∀ a, ChkSorted (chk2 a) ∧ ChkBounded (chk2 a) cur := by
  intro a
  rcases he a with heq | ⟨w, heq⟩
  · rw [heq]; exact hwf a
  · rw [heq]; exact write_checkpoint_wf w (hwf a).1 (hwf a).2

lemma chkEvolve_priorVotesAt {chk chk2 : Addr → List Checkpoint} {cur b : Nat}
    (he : ChkEvolve chk chk2 cur) (hb : b < cur) (a : Addr) :
    priorVotesAt (chk2 a) b = priorVotesAt (chk a) b := by
  rcases he a with heq | ⟨w, heq⟩
  · rw [heq]
  · rw [heq, priorVotesAt_write w hb]

lemma chkEvolve_get_prior_votes {chk chk2 : Addr → List Checkpoint} {cur b : Nat}
    (he : ChkEvolve chk chk2 cur) (hb : b < cur)
    (hwf : ∀ a, ChkSorted (chk a) ∧ ChkBounded (chk a) cur) (a : Addr) (qcur : Nat) :
    get_prior_votes (chk2 a) qcur b = get_prior_votes (chk a) qcur b := by
  rcases Nat.lt_or_ge b qcur with hq | hq
  · rw [get_prior_votes_ok (chkEvolve_wf he hwf a).1 hq, get_prior_votes_ok (hwf a).1 hq,
      chkEvolve_priorVotesAt he hb a]
  · unfold get_prior_votes
    rw [if_pos hq, if_pos hq]

lemma applyOp_wf {st : TokenState} {cur : Nat} {op : GovOp} {st2 : TokenState}
    (hwf : WfUpto st cur) (h : applyOp st cur op = .ok st2) : WfUpto st2 cur :=
  chkEvolve_wf (applyOp_evolve h) hwf

lemma runOps_wf : ∀ (ops : List (Nat × GovOp)) (st : TokenState) (base : Nat),
    WfUpto st base → List.Chain (· ≤ ·) base (ops.map Prod.fst) →
    ∃ c, base ≤ c ∧ WfUpto (runOps st ops) c := by
  intro ops
  induction ops with
  | nil => intro st base hwf _; exact ⟨base, le_refl _, hwf⟩
  | cons p rest ih =>
    intro st base hwf hch
    obtain ⟨cur, op⟩ := p
    rw [List.map_cons, List.chain_cons] at hch
    obtain ⟨hbc, hch⟩ := hch
    have hwf2 : WfUpto st cur := wfUpto_mono hbc hwf
    rw [runOps]
    rcases hap : applyOp st cur op with e | st2
    · obtain ⟨c, hc, hwfc⟩ := ih st cur hwf2 hch
      exact ⟨c, le_trans hbc hc, by simpa [hap] using hwfc⟩
    · obtain ⟨c, hc, hwfc⟩ := ih st2 cur (applyOp_wf hwf2 hap) hch
      exact ⟨c, le_trans hbc hc, by simpa [hap] using hwfc⟩

lemma initializeToken_wf (admin : Addr) (supply cur : Nat) :
    WfUpto (initializeToken admin supply cur) cur := by
  intro a
  unfold initializeToken
  dsimp only
  by_cases ha : a = admin
  · subst ha
    rw [upd_same, write_checkpoint_nil]
    constructor
    · exact List.pairwise_singleton _ _
    · intro c hc; simp at hc; simp [hc]
  · rw [upd_ne _ _ ha]
    constructor
    · exact List.Pairwise.nil
    · intro c hc; simp at hc

/-! ## Claim theorems -/

/-- C1: for a wellformed checkpoint list, `get_prior_votes` fails with
`InvalidCheckpoint` exactly when `block_number >= current_block`; otherwise it
returns 0 when there are no checkpoints or `block_number` precedes the first
checkpoint's `from_block`, and else the votes of the latest checkpoint whose
`from_block <= block_number` (in particular, exact equality at a checkpoint
block returns that checkpoint's votes). -/
theorem get_prior_votes_spec (cps : List Checkpoint) (hs : ChkSorted cps)
    (current_block block_number : Nat) :
    (get_prior_votes cps current_block block_number = .error .InvalidCheckpoint ↔
       current_block ≤ block_number) ∧
    (block_number < current_block →
       get_prior_votes cps current_block block_number = .ok (priorVotesAt cps block_number)) ∧
    (cps = [] → priorVotesAt cps block_number = 0) ∧
    (∀ c0 rest, cps = c0 :: rest → block_number < c0.from_block →
       priorVotesAt cps block_number = 0) ∧
    (∀ i, ∀ hi : i < cps.length, (cps.get ⟨i, hi⟩).from_block = block_number →
       priorVotesAt cps block_number = (cps.get ⟨i, hi⟩).votes) := by
  refine ⟨⟨?_, ?_⟩, ?_, ?_, ?_, ?_⟩
  · intro herr
    by_contra hlt
    rw [get_prior_votes_ok hs (by omega)] at herr
    exact Except.noConfusion herr
  · intro hge
    unfold get_prior_votes
    rw [if_pos hge]
  · exact get_prior_votes_ok hs
  · intro he; subst he; rfl
  · intro c0 rest he hfst
    subst he
    refine priorVotesAt_eq_zero ?_
    intro c hc
    rcases List.mem_iff_get.mp hc with ⟨⟨i, hil⟩, hci⟩
    rw [← hci, ← chkAt_eq_get hil]
    rcases Nat.eq_zero_or_pos i with hi0 | hi0
    · subst hi0
      simpa [chkAt] using hfst
    · have hlt := sorted_lt hs hi0 hil
      have h0 : chkAt (c0 :: rest) 0 = c0 := by simp [chkAt]
      rw [h0] at hlt
      omega
  · intro i hi heq
    rw [← chkAt_eq_get hi] at heq ⊢
    refine priorVotesAt_eq_of_lastLE hi (le_of_eq heq) ?_
    intro k hik hkl
    have := sorted_lt hs hik hkl
    omega

/-- C1 witness: a concrete query between two checkpoints. -/
theorem get_prior_votes_spec_witness :
    get_prior_votes [⟨5, 100⟩, ⟨10, 60⟩] 20 10 = .ok (priorVotesAt [⟨5, 100⟩, ⟨10, 60⟩] 10) :=
  (get_prior_votes_spec [⟨5, 100⟩, ⟨10, 60⟩] (by decide) 20 10).2.1 (by decide)

/-- C2: for a wellformed token state, any `transfer`, `transfer_from` or
`delegate` executed at a block `cur` strictly greater than `b` leaves every
account's `get_prior_votes` at `b` unchanged; in particular an account with
zero prior votes at `b` that receives tokens afterwards still reads 0 at `b`
even though its balance became nonzero. -/
theorem snapshot_immutability (st : TokenState) (cur b : Nat) (hb : b < cur)
    (hwf : WfUpto st cur) :
    (∀ f t amount st2, transfer st cur f t amount = .ok st2 →
       ∀ a qcur, get_prior_votes (st2.checkpoints a) qcur b
         = get_prior_votes (st.checkpoints a) qcur b) ∧
    (∀ sp f t amount st2, transfer_from st cur sp f t amount = .ok st2 →
       ∀ a qcur, get_prior_votes (st2.checkpoints a) qcur b
         = get_prior_votes (st.checkpoints a) qcur b) ∧
    (∀ dr de st2, delegate st cur dr de = .ok st2 →
       ∀ a qcur, get_prior_votes (st2.checkpoints a) qcur b
         = get_prior_votes (st.checkpoints a) qcur b) ∧
    (∀ f t amount st2, f ≠ t → 0 < amount → transfer st cur f t amount = .ok st2 →
       priorVotesAt (st.checkpoints t) b = 0 →
       get_prior_votes (st2.checkpoints t) cur b = .ok 0 ∧
       st2.balances t = st.balances t + amount ∧ 0 < st2.balances t) := by
  refine ⟨?_, ?_, ?_, ?_⟩
  · intro f t amount st2 h a qcur
    exact chkEvolve_get_prior_votes (transfer_evolve h) hb hwf a qcur
  · intro sp f t amount st2 h a qcur
    exact chkEvolve_get_prior_votes (transfer_from_evolve h) hb hwf a qcur
  · intro dr de st2 h a qcur
    exact chkEvolve_get_prior_votes (delegate_evolve h) hb hwf a qcur
  · intro f t amount st2 hft hamt h hz
    have he := transfer_evolve h
    have hq : get_prior_votes (st2.checkpoints t) cur b = .ok 0 := by
      rw [get_prior_votes_ok (chkEvolve_wf he hwf t).1 hb,
        chkEvolve_priorVotesAt he hb t, hz]
    refine ⟨hq, ?_⟩
    unfold transfer at h
    rw [if_neg (by omega)] at h
    split at h
    · exact absurd h (by simp)
    · dsimp only at h
      split at h
      · exact absurd h (by simp)
      · rename_i nt hnt
        split at h
        · exact absurd h (by simp)
        · injection h with h
          subst h
          dsimp only
          rw [upd_same]
          unfold checked_add_u128 at hnt
          split at hnt
          · injection hnt with hnt
            subst hnt
            rw [upd_ne _ _ (fun hh : t = f => hft hh.symm)]
            omega
          · exact absurd hnt (by simp)

/-- C2 witness: a transfer at block 150 does not change the admin's prior
votes at block 100, and the fresh recipient still reads 0 at the snapshot. -/
theorem snapshot_immutability_witness :
    get_prior_votes ((initializeToken 0 1000000 100).checkpoints 1) 151 100 = .ok 0 ∧
    0 < 1000000 := by
  have hwf : WfUpto (initializeToken 0 1000000 100) 150 := by
    intro a
    constructor
    · unfold initializeToken
      dsimp only
      by_cases ha : a = 0
      · subst ha; rw [upd_same]; decide
      · rw [upd_ne _ _ ha]; decide
    · unfold initializeToken
      dsimp only
      by_cases ha : a = 0
      · subst ha; rw [upd_same]; decide
      · rw [upd_ne _ _ ha]; decide
  have h := (snapshot_immutability (initializeToken 0 1000000 100) 150 100 (by decide) hwf).1
    0 1 100000 (runOps (initializeToken 0 1000000 100) [(150, .transferOp 0 1 100000)])
  constructor
  · have := h (by rfl) 1 151
    rw [← this]
    rfl
  · decide

/-- C3: starting from `initialize` and applying any sequence of
transfer/transfer_from/delegate operations at non-decreasing ledger blocks,
every account's checkpoint list has strictly increasing `from_block` (hence
non-decreasing, with at most one checkpoint per distinct block); a
`_write_checkpoint` at the block of the last checkpoint overwrites that entry
and keeps the count, while a write at a later block appends and increments the
count by one. -/
theorem checkpoint_list_invariant :
    (∀ admin supply cur0 ops, List.Chain (· ≤ ·) cur0 (ops.map Prod.fst) →
       ∀ a, ChkSorted ((runOps (initializeToken admin supply cur0) ops).checkpoints a)) ∧
    (∀ l (c : Checkpoint) cur v, c.from_block = cur →
       write_checkpoint (l ++ [c]) cur v = l ++ [⟨cur, v⟩] ∧
       (write_checkpoint (l ++ [c]) cur v).length = (l ++ [c]).length) ∧
    (∀ l (c : Checkpoint) cur v, c.from_block < cur →
       write_checkpoint (l ++ [c]) cur v = (l ++ [c]) ++ [⟨cur, v⟩] ∧
       (write_checkpoint (l ++ [c]) cur v).length = (l ++ [c]).length + 1) := by
  refine ⟨?_, ?_, ?_⟩
  · intro admin supply cur0 ops hch a
    obtain ⟨c, -, hwfc⟩ := runOps_wf ops (initializeToken admin supply cur0) cur0
      (initializeToken_wf admin supply cur0) hch
    exact (hwfc a).1
  · intro l c cur v hc
    refine ⟨write_checkpoint_same l v hc, ?_⟩
    rw [write_checkpoint_same l v hc]
    simp
  · intro l c cur v hc
    have hne : c.from_block ≠ cur := by omega
    refine ⟨write_checkpoint_ne l v hne, ?_⟩
    rw [write_checkpoint_ne l v hne]
    simp

/-- C3 witness: a concrete init-transfer-delegate history keeps the admin's
checkpoint list strictly sorted. -/
theorem checkpoint_list_invariant_witness :
    ChkSorted ((runOps (initializeToken 0 1000000 100)
      [(150, .transferOp 0 1 100000), (150, .delegateOp 1 2)]).checkpoints 0) :=
  checkpoint_list_invariant.1 0 1000000 100
    [(150, .transferOp 0 1 100000), (150, .delegateOp 1 2)]
    (.cons (by decide) (.cons (by decide) .nil)) 0

/-- C4: for every stored proposal, `state` evaluates the canceled / executed /
pending / active / defeated / succeeded / expired / queued rules in exactly
this order, with a 14-day grace period in seconds. -/
theorem proposal_state_rules (mgr : ManagerState) (pid cb ct ts : Nat) (p : Proposal)
    (hp : mgr.proposals pid = some p) :
    mgr_state mgr pid cb ct ts = .ok (stateOf p cb ct ts mgr.config.quorum_numerator) ∧
    (p.canceled = true → stateOf p cb ct ts mgr.config.quorum_numerator = .Canceled) ∧
    (p.canceled = false → p.executed = true →
       stateOf p cb ct ts mgr.config.quorum_numerator = .Executed) ∧
    (p.canceled = false → p.executed = false → cb < p.start_block →
       stateOf p cb ct ts mgr.config.quorum_numerator = .Pending) ∧
    (p.canceled = false → p.executed = false → p.start_block ≤ cb → cb ≤ p.end_block →
       stateOf p cb ct ts mgr.config.quorum_numerator = .Active) ∧
    (p.canceled = false → p.executed = false → p.start_block ≤ cb → p.end_block < cb →
       proposal_succeeded ts p.for_votes p.against_votes p.abstain_votes
         mgr.config.quorum_numerator = false →
       stateOf p cb ct ts mgr.config.quorum_numerator = .Defeated) ∧
    (p.canceled = false → p.executed = false → p.start_block ≤ cb → p.end_block < cb →
       proposal_succeeded ts p.for_votes p.against_votes p.abstain_votes
         mgr.config.quorum_numerator = true → p.eta = 0 →
       stateOf p cb ct ts mgr.config.quorum_numerator = .Succeeded) ∧
    (p.canceled = false → p.executed = false → p.start_block ≤ cb → p.end_block < cb →
       proposal_succeeded ts p.for_votes p.against_votes p.abstain_votes
         mgr.config.quorum_numerator = true → p.eta ≠ 0 →
       p.eta + 14 * 24 * 60 * 60 < ct →
       stateOf p cb ct ts mgr.config.quorum_numerator = .Expired) ∧
    (p.canceled = false → p.executed = false → p.start_block ≤ cb → p.end_block < cb →
       proposal_succeeded ts p.for_votes p.against_votes p.abstain_votes
         mgr.config.quorum_numerator = true → p.eta ≠ 0 →
       ct ≤ p.eta + 14 * 24 * 60 * 60 →
       stateOf p cb ct ts mgr.config.quorum_numerator = .Queued) := by
  refine ⟨?_, ?_, ?_, ?_, ?_, ?_, ?_, ?_, ?_⟩
  · unfold mgr_state
    rw [hp]
  · intro hc
    unfold stateOf
    simp [hc]
  · intro hc he
    unfold stateOf
    simp [hc, he]
  · intro hc he hcb
    unfold stateOf
    simp [hc, he, hcb]
  · intro hc he hsb heb
    unfold stateOf
    simp [hc, he, heb]
    omega
  · intro hc he hsb heb hsucc
    unfold stateOf
    rw [if_neg (by simp [hc]), if_neg (by simp [he]), if_neg (by omega), if_neg (by omega),
      if_pos (by simp [hsucc])]
  · intro hc he hsb heb hsucc heta
    unfold stateOf
    rw [if_neg (by simp [hc]), if_neg (by simp [he]), if_neg (by omega), if_neg (by omega),
      if_neg (by simp [hsucc]), if_pos heta]
  · intro hc he hsb heb hsucc heta hexp
    unfold stateOf
    rw [if_neg (by simp [hc]), if_neg (by simp [he]), if_neg (by omega), if_neg (by omega),
      if_neg (by simp [hsucc]), if_neg heta, if_pos (by unfold gracePeriod; omega)]
  · intro hc he hsb heb hsucc heta hq
    unfold stateOf
    rw [if_neg (by simp [hc]), if_neg (by simp [he]), if_neg (by omega), if_neg (by omega),
      if_neg (by simp [hsucc]), if_neg heta, if_neg (by unfold gracePeriod; omega)]

/-- C4 witness: the sample closed proposal is `Succeeded` under 50% quorum. -/
theorem proposal_state_rules_witness :
    mgr_state mgrSample 1 21 0 100 = .ok .Succeeded := by
  have h := proposal_state_rules mgrSample 1 21 0 100 propSample rfl
  rw [h.1, h.2.2.2.2.2.2.1 rfl rfl (by decide) (by decide) (by decide) rfl]

/-- C5: the timelock transaction hash depends only on (value, data, eta) — two
queue calls differing only in target produce the same hash and identical
results (hence mark the same queue entry). -/
theorem tx_hash_ignores_target (keccak : List Nat → List Nat) (t1 t2 : Addr) (value : Nat)
    (data : List Nat) (eta : Nat) :
    get_tx_hash keccak t1 value data eta = get_tx_hash keccak t2 value data eta ∧
    ∀ (tl : TimelockState) (cur_time : Nat),
      queue_transaction keccak tl cur_time t1 value data eta
        = queue_transaction keccak tl cur_time t2 value data eta :=
  ⟨rfl, fun _ _ => rfl⟩

/-- C7 counterexample: the claimed universal iff fails at an overflowing tally.
With supply 1000000 and numerator 50 the quorum is 500000 and the claim's
formula accepts `for_votes = 2^128 - 1, against_votes = 1`, but the contract's
unchecked u128 sum wraps to 0 there, so `quorum_reached` returns false. -/
theorem quorum_overflow_cex :
    quorum_reached 1000000 (2 ^ 128 - 1) 1 0 50 = false ∧
    1000000 * 50 / 100 ≤ (2 ^ 128 - 1) + 1 + 0 :=
  ⟨by decide, by norm_num⟩

/-- C7 amended: whenever neither the tally sum nor
`total_supply * quorum_numerator` overflows u128, `quorum_reached` returns true
exactly when `for + against + abstain >= total_supply * quorum_numerator / 100`
(truncating integer division); `proposal_succeeded` returns true exactly when
`quorum_reached` holds and `for_votes > against_votes` (a tie fails,
unconditionally, since it only reads the quorum predicate's output); with
supply 1000000 and numerator 50, quorum is missed at 499999 total votes and
reached at 500000. -/
theorem quorum_and_success_rules :
    (∀ ts f a ab qn, f + a + ab < U128LIM → ts * qn < U128LIM →
       (quorum_reached ts f a ab qn = true ↔ ts * qn / 100 ≤ f + a + ab)) ∧
    (∀ ts f a ab qn, (proposal_succeeded ts f a ab qn = true ↔
        quorum_reached ts f a ab qn = true ∧ a < f)) ∧
    quorum_reached 1000000 499999 0 0 50 = false ∧
    quorum_reached 1000000 500000 0 0 50 = true := by
  refine ⟨?_, ?_, by decide, by decide⟩
  · intro ts f a ab qn h1 h2
    unfold quorum_reached
    dsimp only
    rw [Nat.mod_eq_of_lt h1, Nat.mod_eq_of_lt h2]
    simp [ge_iff_le]
  · intro ts f a ab qn
    unfold proposal_succeeded
    by_cases hq : quorum_reached ts f a ab qn = true
    · simp [hq]
    · simp [hq]

/-- C7 witness: the no-overflow iff exercised at the 500000-vote boundary. -/
theorem quorum_and_success_rules_witness :
    quorum_reached 1000000 500000 0 0 50 = true ↔ 1000000 * 50 / 100 ≤ 500000 + 0 + 0 :=
  quorum_and_success_rules.1 1000000 500000 0 0 50 (by decide) (by decide)

/-- C6 counterexample: an authorized `update_config` that only changes the
quorum numerator (50% to 70%) flips the same stored proposal, at the same
block and time, from `Succeeded` to `Defeated` — `state` reads the live
config's quorum numerator, so a config replacement does retroactively change
the outcome derived for an in-flight proposal. -/
theorem update_config_changes_state_cex :
    update_config mgrSample 0 cfg70 = .ok mgrSample70 ∧
    mgr_state mgrSample 1 21 0 100 = .ok .Succeeded ∧
    mgr_state mgrSample70 1 21 0 100 = .ok .Defeated := by
  refine ⟨rfl, rfl, rfl⟩

/-- C6 amended: `update_config` is admin-only (`Unauthorized` otherwise) and
fully replaces the config; stored proposals (hence their
`start_block`/`end_block`) are untouched, and `state` is unchanged at every
block and time provided the new config keeps the old `quorum_numerator` —
a replacement that changes the quorum numerator can change a closed
proposal's Defeated/Succeeded outcome. -/
theorem update_config_frame (mgr : ManagerState) (caller : Addr) (ncfg : GovernanceConfig) :
    (caller ≠ mgr.admin → update_config mgr caller ncfg = .error .Unauthorized) ∧
    (caller = mgr.admin → update_config mgr caller ncfg = .ok { mgr with config := ncfg }) ∧
    (∀ mgr2, update_config mgr caller ncfg = .ok mgr2 →
       mgr2.proposals = mgr.proposals ∧
       (ncfg.quorum_numerator = mgr.config.quorum_numerator →
         ∀ pid cb ct ts, mgr_state mgr2 pid cb ct ts = mgr_state mgr pid cb ct ts)) := by
  refine ⟨?_, ?_, ?_⟩
  · intro hne
    unfold update_config
    rw [if_pos hne]
  · intro heq
    unfold update_config
    rw [if_neg (by simp [heq])]
  · intro mgr2 h
    unfold update_config at h
    split at h
    · exact absurd h (by simp)
    · injection h with h
      subst h
      refine ⟨rfl, ?_⟩
      intro hq pid cb ct ts
      unfold mgr_state
      dsimp only
      rw [hq]

/-- C6 amended witness: updating to a config with the same quorum numerator
leaves the sample proposal's derived state unchanged. -/
theorem update_config_frame_witness :
    mgr_state { mgrSample with config := cfgSameQuorum } 1 21 0 100
      = mgr_state mgrSample 1 21 0 100 :=
  ((update_config_frame mgrSample 0 cfgSameQuorum).2.2
    { mgrSample with config := cfgSameQuorum } rfl).2 rfl 1 21 0 100

/-- C8: `cast_vote` fails with `AlreadyVoted` whenever a receipt exists for
(proposal, voter) — whatever the new support value; fails with
`InsufficientBalance` when the snapshot voting power is zero; otherwise
persists and returns the receipt `{has_voted := true, support, votes}` with
`votes` the prior votes at the snapshot block, touching no other receipt; and
an existing receipt is never mutated by any later `cast_vote`. -/
theorem cast_vote_spec (vs : VotingState) (hwf : VotesWf vs)
    (tokenChk : Addr → List Checkpoint) (cur pid snap : Nat) (voter : Addr)
    (support : VoteSupport) :
    (∀ r, vs.records pid voter = some r →
       cast_vote vs tokenChk cur pid snap voter support = .error .AlreadyVoted) ∧
    (vs.records pid voter = none →
       get_prior_votes (tokenChk voter) cur snap = .ok 0 →
       cast_vote vs tokenChk cur pid snap voter support = .error .InsufficientBalance) ∧
    (∀ v, vs.records pid voter = none →
       get_prior_votes (tokenChk voter) cur snap = .ok v → v ≠ 0 →
       ∃ vs2, cast_vote vs tokenChk cur pid snap voter support = .ok (vs2, ⟨true, support, v⟩) ∧
         vs2.records pid voter = some ⟨true, support, v⟩ ∧
         (∀ pid2 a2, ¬(pid2 = pid ∧ a2 = voter) → vs2.records pid2 a2 = vs.records pid2 a2) ∧
         VotesWf vs2) ∧
    (∀ r pid2 snap2 (voter2 : Addr) support2 vs2 rec2,
       vs.records pid voter = some r →
       cast_vote vs tokenChk cur pid2 snap2 voter2 support2 = .ok (vs2, rec2) →
       vs2.records pid voter = some r) := by
  refine ⟨?_, ?_, ?_, ?_⟩
  · intro r hr
    unfold cast_vote
    rw [if_pos (by unfold has_voted; rw [hr]; exact hwf pid voter r hr)]
  · intro hr hz
    unfold cast_vote
    rw [if_neg (by unfold has_voted; rw [hr]; simp), hz]
    dsimp only
    rw [if_pos rfl]
  · intro v hr hv hnz
    unfold cast_vote
    rw [if_neg (by unfold has_voted; rw [hr]; simp), hv]
    dsimp only
    rw [if_neg hnz]
    refine ⟨_, rfl, ?_, ?_, ?_⟩
    · dsimp only
      rw [if_pos ⟨rfl, rfl⟩]
    · intro pid2 a2 hne
      dsimp only
      rw [if_neg hne]
    · intro pid2 a2 r hr2
      dsimp only at hr2
      split at hr2
      · injection hr2 with hr2
        subst hr2
        rfl
      · exact hwf pid2 a2 r hr2
  · intro r pid2 snap2 voter2 support2 vs2 rec2 hr hok
    unfold cast_vote at hok
    split at hok
    · exact absurd hok (by simp)
    · rename_i hnv
      split at hok
      · exact absurd hok (by simp)
      · rename_i v hv
        split at hok
        · exact absurd hok (by simp)
        · rename_i hvz
          injection hok with hok
          have hrec := congrArg Prod.fst hok
          dsimp only at hrec
          subst hrec
          dsimp only
          by_cases hsame : pid = pid2 ∧ voter = voter2
          · exfalso
            apply hnv
            unfold has_voted
            rw [← hsame.1, ← hsame.2, hr]
            exact hwf pid voter r hr
          · rw [if_neg hsame, hr]

/-- C8 witness: a fresh voter with 100 votes at the snapshot gets the receipt
`{has_voted := true, support := For, votes := 100}`. -/
theorem cast_vote_spec_witness :
    (cast_vote vs0 tokenChk0 10 1 6 0 .For).toOption.map Prod.snd
      = some ⟨true, .For, 100⟩ := by
  obtain ⟨vs2, h1, -, -, -⟩ :=
    (cast_vote_spec vs0 (fun _ _ _ h => Option.noConfusion h) tokenChk0 10 1 6 0 .For).2.2.1
      100 rfl rfl (by decide)
  rw [h1]
  rfl

/-- C9: `propose` rejects length-mismatched arrays (`ArrayLengthMismatch`),
empty arrays (`InvalidProposal`), and a proposer whose prior votes at
`current_block - 1` are below the threshold (`BelowProposalThreshold`);
on success the id is `proposal_count + 1` (so ids are 1, 2, ... from a fresh
manager) and the stored proposal has `start_block = cur + voting_delay`,
`end_block = start_block + voting_period`, zero tallies, cleared flags and
`eta = 0`. -/
theorem propose_spec (mgr : ManagerState) (tokenChk : Addr → List Checkpoint) (cur : Nat)
    (proposer : Addr) (targets : List Addr) (values : List Nat)
    (calldatas : List (List Nat)) (description : String) :
    (targets.length ≠ values.length ∨ targets.length ≠ calldatas.length →
       propose mgr tokenChk cur proposer targets values calldatas description
         = .error .ArrayLengthMismatch) ∧
    (targets.length = values.length → targets.length = calldatas.length → targets = [] →
       propose mgr tokenChk cur proposer targets values calldatas description
         = .error .InvalidProposal) ∧
    (∀ pv, targets.length = values.length → targets.length = calldatas.length → targets ≠ [] →
       get_prior_votes (tokenChk proposer) cur (cur - 1) = .ok pv →
       pv < mgr.config.proposal_threshold →
       propose mgr tokenChk cur proposer targets values calldatas description
         = .error .BelowProposalThreshold) ∧
    (∀ pv, targets.length = values.length → targets.length = calldatas.length → targets ≠ [] →
       get_prior_votes (tokenChk proposer) cur (cur - 1) = .ok pv →
       mgr.config.proposal_threshold ≤ pv →
       propose mgr tokenChk cur proposer targets values calldatas description
         = .ok ({ mgr with
                    proposals := upd mgr.proposals (mgr.proposal_count + 1) (some
                      { id := mgr.proposal_count + 1, proposer := proposer
                        targets := targets, values := values, calldatas := calldatas
                        description := description
                        start_block := cur + mgr.config.voting_delay
                        end_block := cur + mgr.config.voting_delay + mgr.config.voting_period
                        for_votes := 0, against_votes := 0, abstain_votes := 0
                        canceled := false, executed := false, eta := 0 })
                    proposal_count := mgr.proposal_count + 1 },
                mgr.proposal_count + 1)) ∧
    (∀ admin config, (initializeManager admin config).proposal_count = 0) := by
  refine ⟨?_, ?_, ?_, ?_, ?_⟩
  · intro hmm
    unfold propose
    rw [if_pos hmm]
  · intro hv hc hemp
    unfold propose
    rw [if_neg (by omega), if_pos (by simp [hemp])]
  · intro pv hv hc hne hpv hlt
    unfold propose
    rw [if_neg (by omega), if_neg (by simpa using hne), hpv]
    dsimp only
    rw [if_pos hlt]
  · intro pv hv hc hne hpv hge
    unfold propose
    rw [if_neg (by omega), if_neg (by simpa using hne), hpv]
    dsimp only
    rw [if_neg (by omega)]
  · intro admin config
    rfl

/-- C9 witness: a valid single-target proposal from a proposer with 100 prior
votes against threshold 1 is stored under id `proposal_count + 1`. -/
theorem propose_spec_witness :
    propose (initializeManager 0 ⟨10, 100, 1, 50, 7200⟩) tokenChk0 9 7 [3] [0] [[]] ""
      = .ok ({ (initializeManager 0 ⟨10, 100, 1, 50, 7200⟩) with
                 proposals := upd (initializeManager 0 ⟨10, 100, 1, 50, 7200⟩).proposals 1 (some
                   { id := 1, proposer := 7, targets := [3], values := [0], calldatas := [[]]
                     description := "", start_block := 19, end_block := 119
                     for_votes := 0, against_votes := 0, abstain_votes := 0
                     canceled := false, executed := false, eta := 0 })
                 proposal_count := 1 },
             1) :=
  (propose_spec (initializeManager 0 ⟨10, 100, 1, 50, 7200⟩) tokenChk0 9 7 [3] [0] [[]] "").2.2.2.1
    100 rfl rfl (by decide) rfl (by decide)

/-- C10: `record_vote` performs no authorization or lifecycle check: for every
stored proposal — canceled, executed, pending or closed alike — and any support
and votes, it adds `votes` to the selected tally with checked `u128` addition,
leaving every other field and proposal untouched; its only failures are a
missing proposal id (`InvalidProposal`) and arithmetic overflow (fatal). -/
theorem record_vote_spec (mgr : ManagerState) (pid : Nat) (support : VoteSupport) (votes : Nat) :
    (mgr.proposals pid = none →
       record_vote mgr pid support votes = .error (.gov .InvalidProposal)) ∧
    (∀ p, mgr.proposals pid = some p → bucket p support + votes < U128LIM →
       ∃ mgr2 p2, record_vote mgr pid support votes = .ok mgr2 ∧
         mgr2.proposals pid = some p2 ∧
         bucket p2 support = bucket p support + votes ∧
         (∀ s2, s2 ≠ support → bucket p2 s2 = bucket p s2) ∧
         p2.canceled = p.canceled ∧ p2.executed = p.executed ∧
         p2.start_block = p.start_block ∧ p2.end_block = p.end_block ∧ p2.eta = p.eta ∧
         (∀ pid2, pid2 ≠ pid → mgr2.proposals pid2 = mgr.proposals pid2) ∧
         mgr2.config = mgr.config ∧ mgr2.admin = mgr.admin) ∧
    (∀ p, mgr.proposals pid = some p → U128LIM ≤ bucket p support + votes →
       record_vote mgr pid support votes = .error .overflow) := by
  refine ⟨?_, ?_, ?_⟩
  · intro hp
    unfold record_vote
    rw [hp]
  · intro p hp hlt
    unfold record_vote
    rw [hp]
    cases support with
    | For =>
      dsimp only
      rw [show checked_add_u128 p.for_votes votes = some (p.for_votes + votes) from by
        unfold checked_add_u128
        rw [if_pos (show p.for_votes + votes < U128LIM from hlt)]]
      dsimp only
      refine ⟨_, _, rfl, upd_same _ _ _, rfl, ?_, rfl, rfl, rfl, rfl, rfl,
        fun pid2 h2 => upd_ne _ _ h2, rfl, rfl⟩
      intro s2 hs2
      cases s2 <;> first | rfl | exact absurd rfl hs2
    | Against =>
      dsimp only
      rw [show checked_add_u128 p.against_votes votes = some (p.against_votes + votes) from by
        unfold checked_add_u128
        rw [if_pos (show p.against_votes + votes < U128LIM from hlt)]]
      dsimp only
      refine ⟨_, _, rfl, upd_same _ _ _, rfl, ?_, rfl, rfl, rfl, rfl, rfl,
        fun pid2 h2 => upd_ne _ _ h2, rfl, rfl⟩
      intro s2 hs2
      cases s2 <;> first | rfl | exact absurd rfl hs2
    | Abstain =>
      dsimp only
      rw [show checked_add_u128 p.abstain_votes votes = some (p.abstain_votes + votes) from by
        unfold checked_add_u128
        rw [if_pos (show p.abstain_votes + votes < U128LIM from hlt)]]
      dsimp only
      refine ⟨_, _, rfl, upd_same _ _ _, rfl, ?_, rfl, rfl, rfl, rfl, rfl,
        fun pid2 h2 => upd_ne _ _ h2, rfl, rfl⟩
      intro s2 hs2
      cases s2 <;> first | rfl | exact absurd rfl hs2
  · intro p hp hge
    unfold record_vote
    rw [hp]
    cases support with
    | For =>
      dsimp only
      rw [show checked_add_u128 p.for_votes votes = none from by
        unfold checked_add_u128
        have hge2 : U128LIM ≤ p.for_votes + votes := hge
        rw [if_neg (by omega)]]
    | Against =>
      dsimp only
      rw [show checked_add_u128 p.against_votes votes = none from by
        unfold checked_add_u128
        have hge2 : U128LIM ≤ p.against_votes + votes := hge
        rw [if_neg (by omega)]]
    | Abstain =>
      dsimp only
      rw [show checked_add_u128 p.abstain_votes votes = none from by
        unfold checked_add_u128
        have hge2 : U128LIM ≤ p.abstain_votes + votes := hge
        rw [if_neg (by omega)]]

/-- C10 witness: voting Against on the sample proposal (already past its
voting window) still succeeds. -/
theorem record_vote_spec_witness :
    (record_vote mgrSample 1 .Against 5).toOption.isSome = true := by
  obtain ⟨mgr2, p2, h1, -⟩ := (record_vote_spec mgrSample 1 .Against 5).2.1
    propSample rfl (by decide)
  rw [h1]
  rfl

end Gov
